import Mathlib

/-!
Verification of the storage core of the rust-huge-table repository.

Shallow embedding conventions:
* byte buffers are `List Nat` whose elements are bytes (values below 256);
* machine integers are `Nat` / `Int` with explicit `% 2 ^ w` where wrap-around
  can occur; Rust panics (out-of-bounds indexing, failed `unwrap` / `expect` /
  `assert!`) are modelled by `Option` with `none` for the panic;
* decoding cursors `(slice, offset)` are modelled in suffix style: a decoder
  takes the suffix of the buffer that starts at the cursor and returns the
  decoded value together with the number of bytes consumed.
-/

namespace HugeTable

/-- LEB128 unsigned varint encoder, `encode_varint_u64` in src/primitives.rs
(`encode_varint_u32` and `encode_varint_usize` have the identical body).
Written fuel-structurally so that the kernel can evaluate it; fuel `v` always
suffices because the value shrinks by a factor of 128 at each step. -/
def encodeVarintAux : Nat → Nat → List Nat
| 0, v => [v]
| fuel + 1, v => if v < 128 then [v] else (v % 128 + 128) :: encodeVarintAux fuel (v / 128)

/-- `encode_varint_u64` (src/primitives.rs, lines 41-47). -/
def encodeVarintNat (v : Nat) : List Nat := encodeVarintAux v v

/-- `decode_varint_u64` (src/primitives.rs, lines 135-153), in suffix style:
returns the decoded value and the number of bytes consumed. The loop
`result += (next & 0x7F) << shift` is the Horner form
`b % 128 + 128 * rest`. -/
def decodeVarintFrom : List Nat → Option (Nat × Nat)
| [] => none
| b :: rest =>
  if b < 128 then some (b, 1)
  else match decodeVarintFrom rest with
       | none => none
       | some (v, n) => some (b % 128 + 128 * v, n + 1)

/-- `encode_fixed_u32`: little-endian fixed width (src/primitives.rs, lines 75-79). -/
def encodeFixedU32 (v : Nat) : List Nat :=
  [v % 256, v / 256 % 256, v / 256 ^ 2 % 256, v / 256 ^ 3 % 256]

/-- `encode_fixed_u64`: little-endian fixed width (src/primitives.rs, lines 65-69). -/
def encodeFixedU64 (v : Nat) : List Nat :=
  [v % 256, v / 256 % 256, v / 256 ^ 2 % 256, v / 256 ^ 3 % 256,
   v / 256 ^ 4 % 256, v / 256 ^ 5 % 256, v / 256 ^ 6 % 256, v / 256 ^ 7 % 256]

/-- `decode_fixed_u32` (src/primitives.rs, lines 207-211): `none` models the
panic of `split_at` when fewer than 4 bytes remain. -/
def decodeFixedU32From : List Nat → Option (Nat × Nat)
| b0 :: b1 :: b2 :: b3 :: _ => some (b0 + 256 * (b1 + 256 * (b2 + 256 * b3)), 4)
| _ => none

/-- `decode_fixed_u64` (src/primitives.rs, lines 195-199). -/
def decodeFixedU64From : List Nat → Option (Nat × Nat)
| b0 :: b1 :: b2 :: b3 :: b4 :: b5 :: b6 :: b7 :: _ =>
  some (b0 + 256 * (b1 + 256 * (b2 + 256 * (b3 + 256 * (b4 + 256 * (b5 + 256 * (b6 + 256 * b7)))))), 8)
| _ => none

/-- `encode_bool` (src/primitives.rs, lines 85-87): a single byte 0 / 1. -/
def encodeBool (b : Bool) : List Nat := if b then [1] else [0]

/-- `decode_bool` (src/primitives.rs, lines 219-223). -/
def decodeBoolFrom : List Nat → Option (Bool × Nat)
| b :: _ => some (b != 0, 1)
| [] => none

/-- `encode_utf8` (src/primitives.rs, lines 89-93): varint byte length followed
by the UTF-8 bytes; strings are modelled by their byte lists. -/
def encodeUtf8 (s : List Nat) : List Nat := encodeVarintNat s.length ++ s

/-- `decode_utf8` (src/primitives.rs, lines 225-232). UTF-8 validation is not
modelled (every buffer decoded in this development was produced by the
encoder). `none` models the slice panic when not enough bytes remain. -/
def decodeUtf8From (buf : List Nat) : Option (List Nat × Nat) :=
  match decodeVarintFrom buf with
  | none => none
  | some (len, n) =>
    if n + len ≤ buf.length then some (((buf.drop n).take len), n + len) else none

/-- reinterpretation of a `u64` bit pattern as `i64` (two's complement). -/
def toI64 (n : Nat) : Int := if n < 2 ^ 63 then (n : Int) else (n : Int) - 2 ^ 64

/-- wrapping `i64` normalisation (release-mode two's-complement semantics of
Rust `i64` arithmetic). -/
def i64wrap (x : Int) : Int := (x + 2 ^ 63) % 2 ^ 64 - 2 ^ 63

/-- reinterpretation of a `u32` bit pattern as `i32`. -/
def toI32 (n : Nat) : Int := if n < 2 ^ 31 then (n : Int) else (n : Int) - 2 ^ 32

/-- wrapping `i32` normalisation. -/
def i32wrap (x : Int) : Int := (x + 2 ^ 31) % 2 ^ 32 - 2 ^ 31

/-- `encode_varint_i64` (src/primitives.rs, lines 14-21): positive values map
to `v << 1`, non-positive values to `((-v) << 1) + 1` (sign in the least
significant bit). The `u64` casts and shifts wrap modulo `2 ^ 64`; `-value`
on `i64::MIN` wraps (release semantics). -/
def encodeVarintI64 (v : Int) : List Nat :=
  if 0 < v then encodeVarintNat (2 * v.toNat % 2 ^ 64)
  else encodeVarintNat ((2 * ((-v) % 2 ^ 64).toNat) % 2 ^ 64 + 1)

/-- `encode_varint_i32` (src/primitives.rs, lines 22-29); note the source tests
`value >= 0` here, unlike the strict `value > 0` of the 64-bit variant. -/
def encodeVarintI32 (v : Int) : List Nat :=
  if 0 ≤ v then encodeVarintNat (2 * v.toNat % 2 ^ 32)
  else encodeVarintNat ((2 * ((-v) % 2 ^ 32).toNat) % 2 ^ 32 + 1)

/-- `decode_varint_i64` (src/primitives.rs, lines 102-110): undo the sign bit;
`raw` is a `u64`, hence the `% 2 ^ 64`. -/
def decodeVarintI64From (buf : List Nat) : Option (Int × Nat) :=
  match decodeVarintFrom buf with
  | none => none
  | some (raw, n) =>
    if raw % 2 ^ 64 % 2 = 0 then some (toI64 (raw % 2 ^ 64 / 2), n)
    else some (i64wrap (-(toI64 (raw % 2 ^ 64 / 2))), n)

/-- `decode_varint_i32` (src/primitives.rs, lines 112-120). -/
def decodeVarintI32From (buf : List Nat) : Option (Int × Nat) :=
  match decodeVarintFrom buf with
  | none => none
  | some (raw, n) =>
    if raw % 2 ^ 32 % 2 = 0 then some (toI32 (raw % 2 ^ 32 / 2), n)
    else some (i32wrap (-(toI32 (raw % 2 ^ 32 / 2))), n)

theorem decodeVarintFrom_encodeVarintAux (rest : List Nat) :
    ∀ fuel v, v ≤ fuel →
      decodeVarintFrom (encodeVarintAux fuel v ++ rest) =
        some (v, (encodeVarintAux fuel v).length) := by
  intro fuel
  induction fuel with
  | zero =>
    intro v hv
    interval_cases v
    simp [encodeVarintAux, decodeVarintFrom]
  | succ n ih =>
    intro v hv
    by_cases h : v < 128
    · simp [encodeVarintAux, decodeVarintFrom, h]
    · have hdiv : v / 128 ≤ n := by omega
      have hrec := ih (v / 128) hdiv
      simp only [encodeVarintAux, if_neg h, List.cons_append, decodeVarintFrom]
      rw [if_neg (by omega), hrec]
      simp only [List.length_cons]
      have hb : (v % 128 + 128) % 128 = v % 128 := by omega
      rw [hb]
      rw [Nat.mod_add_div v 128]

theorem decodeVarintFrom_encodeVarintNat (v : Nat) (rest : List Nat) :
    decodeVarintFrom (encodeVarintNat v ++ rest) =
      some (v, (encodeVarintNat v).length) :=
  decodeVarintFrom_encodeVarintAux rest v v (Nat.le_refl v)

/-- Claim C10 (amended): for every `i64` value except `i64::MIN` (and every
`i32` value except `i32::MIN`), decoding the bytes produced by
`encode_varint_i64` (resp. `encode_varint_i32`) with `decode_varint_i64`
(resp. `decode_varint_i32`) returns the value and advances the cursor by
exactly the number of bytes written. At `i64::MIN` the encoder computes
`-value`, which overflows (see the counterexample). -/
theorem varint_signed_roundtrip (v64 v32 : Int) (rest64 rest32 : List Nat)
    (h64l : -(2 ^ 63) < v64) (h64u : v64 < 2 ^ 63)
    (h32l : -(2 ^ 31) < v32) (h32u : v32 < 2 ^ 31) :
    decodeVarintI64From (encodeVarintI64 v64 ++ rest64) =
      some (v64, (encodeVarintI64 v64).length) ∧
    decodeVarintI32From (encodeVarintI32 v32 ++ rest32) =
      some (v32, (encodeVarintI32 v32).length) := by
  constructor
  · by_cases hv : 0 < v64
    · have h1 : 2 * v64.toNat % 2 ^ 64 = 2 * v64.toNat := by omega
      simp only [encodeVarintI64, if_pos hv, h1, decodeVarintI64From,
        decodeVarintFrom_encodeVarintNat]
      rw [if_pos (by omega)]
      simp only [Option.some.injEq, Prod.mk.injEq, toI64]
      rw [if_pos (by omega)]
      constructor
      · omega
      · trivial
    · have hm : (-v64) % 2 ^ 64 = -v64 := Int.emod_eq_of_lt (by omega) (by omega)
      have h1 : 2 * ((-v64) % 2 ^ 64).toNat % 2 ^ 64 = 2 * (-v64).toNat := by
        rw [hm]; omega
      simp only [encodeVarintI64, if_neg hv, h1, decodeVarintI64From,
        decodeVarintFrom_encodeVarintNat]
      rw [if_neg (by omega)]
      simp only [Option.some.injEq, Prod.mk.injEq, toI64, i64wrap]
      rw [if_pos (by omega)]
      constructor
      · omega
      · trivial
  · by_cases hv : 0 ≤ v32
    · have h1 : 2 * v32.toNat % 2 ^ 32 = 2 * v32.toNat := by omega
      simp only [encodeVarintI32, if_pos hv, h1, decodeVarintI32From,
        decodeVarintFrom_encodeVarintNat]
      rw [if_pos (by omega)]
      simp only [Option.some.injEq, Prod.mk.injEq, toI32]
      rw [if_pos (by omega)]
      constructor
      · omega
      · trivial
    · have hm : (-v32) % 2 ^ 32 = -v32 := Int.emod_eq_of_lt (by omega) (by omega)
      have h1 : 2 * ((-v32) % 2 ^ 32).toNat % 2 ^ 32 = 2 * (-v32).toNat := by
        rw [hm]; omega
      simp only [encodeVarintI32, if_neg hv, h1, decodeVarintI32From,
        decodeVarintFrom_encodeVarintNat]
      rw [if_neg (by omega)]
      simp only [Option.some.injEq, Prod.mk.injEq, toI32, i32wrap]
      rw [if_pos (by omega)]
      constructor
      · omega
      · trivial

/-- Claim C10 counterexample: the round trip fails at `i64::MIN`: the encoder
negates the value, which wraps, and the resulting single byte decodes to `0`,
not `i64::MIN`. -/
theorem varint_i64_min_roundtrip_fails :
    decodeVarintI64From (encodeVarintI64 (-(2 ^ 63))) = some (0, 1) ∧
    ((-(2 ^ 63) : Int) ≠ 0) := by
  constructor
  · decide
  · decide

/-- Witness for the amended C10 theorem at concrete inputs. -/
theorem varint_signed_roundtrip_witness :
    ((-(2 ^ 63) : Int) < -5 ∧ (-5 : Int) < 2 ^ 63 ∧
     (-(2 ^ 31) : Int) < 7 ∧ (7 : Int) < 2 ^ 31) ∧
    decodeVarintI64From (encodeVarintI64 (-5) ++ [9]) =
      some (-5, (encodeVarintI64 (-5)).length) ∧
    decodeVarintI32From (encodeVarintI32 7 ++ [9]) =
      some (7, (encodeVarintI32 7).length) :=
  ⟨⟨by decide, by decide, by decide, by decide⟩,
    varint_signed_roundtrip (-5) 7 [9] [9] (by decide) (by decide) (by decide) (by decide)⟩

/-- `MergeTimestamp::new` (src/time.rs, lines 47-58): the 64-bit tick value
`(epoch_millis << 23) + (counter << 13) + (unique_context << 3) + time_travel`,
`u64` arithmetic wrapping modulo `2 ^ 64`. A `MergeTimestamp` is represented
here by its tick value; the derived `Ord` of the source struct is numeric
order on ticks. The source asserts `unique_context < 1024` and
`time_travel_part < 8`; every use below satisfies them. -/
def mergeTimestampTicks (epochMillis counterPart uniqueContext timeTravelPart : Nat) : Nat :=
  (epochMillis * 2 ^ 23 + counterPart * 2 ^ 13 + uniqueContext * 2 ^ 3 + timeTravelPart) % 2 ^ 64

/-- lexicographic order on the four timestamp fields, in the order
(epoch_millis, counter, unique_context, time_travel), as the spec words it. -/
def tsFieldsLexLt (e1 c1 u1 t1 e2 c2 u2 t2 : Nat) : Prop :=
  e1 < e2 ∨ (e1 = e2 ∧ (c1 < c2 ∨ (c1 = c2 ∧ (u1 < u2 ∨ (u1 = u2 ∧ t1 < t2)))))

/-- Claim C7: for in-range fields (epoch_millis below 2 ^ 41, counter and
unique_context below 1024, time_travel below 8) the numeric order on the
packed 64-bit tick values produced by `MergeTimestamp::new` is exactly the
lexicographic order on the field tuples, and packed values are equal exactly
when all fields are equal. -/
theorem mergeTimestamp_order_is_lexicographic
    (e1 c1 u1 t1 e2 c2 u2 t2 : Nat)
    (he1 : e1 < 2 ^ 41) (hc1 : c1 < 1024) (hu1 : u1 < 1024) (ht1 : t1 < 8)
    (he2 : e2 < 2 ^ 41) (hc2 : c2 < 1024) (hu2 : u2 < 1024) (ht2 : t2 < 8) :
    (mergeTimestampTicks e1 c1 u1 t1 < mergeTimestampTicks e2 c2 u2 t2 ↔
       tsFieldsLexLt e1 c1 u1 t1 e2 c2 u2 t2) ∧
    (mergeTimestampTicks e1 c1 u1 t1 = mergeTimestampTicks e2 c2 u2 t2 ↔
       (e1 = e2 ∧ c1 = c2 ∧ u1 = u2 ∧ t1 = t2)) := by
  simp only [mergeTimestampTicks, tsFieldsLexLt]
  omega

/-- Witness for the C7 theorem at concrete field values. -/
theorem mergeTimestamp_order_is_lexicographic_witness :
    ((5 : Nat) < 2 ^ 41 ∧ (2 : Nat) < 1024 ∧ (3 : Nat) < 1024 ∧ (4 : Nat) < 8 ∧
     (5 : Nat) < 2 ^ 41 ∧ (2 : Nat) < 1024 ∧ (3 : Nat) < 1024 ∧ (7 : Nat) < 8) ∧
    ((mergeTimestampTicks 5 2 3 4 < mergeTimestampTicks 5 2 3 7 ↔
        tsFieldsLexLt 5 2 3 4 5 2 3 7) ∧
     (mergeTimestampTicks 5 2 3 4 = mergeTimestampTicks 5 2 3 7 ↔
        (5 = 5 ∧ 2 = 2 ∧ 3 = 3 ∧ 4 = 7))) :=
  ⟨⟨by decide, by decide, by decide, by decide, by decide, by decide, by decide, by decide⟩,
    mergeTimestamp_order_is_lexicographic 5 2 3 4 5 2 3 7
      (by decide) (by decide) (by decide) (by decide)
      (by decide) (by decide) (by decide) (by decide)⟩

/-- the mutex-protected mutable state of `WallClock` (src/time.rs, lines 103-107). -/
structure WallClockCounter where
  curEpochMillis : Nat
  counter : Nat
  timeTravelCounter : Nat
deriving DecidableEq, Repr

/-- `WallClock::now` (src/time.rs, lines 163-193) as a state-transition
function: `m` is the wall-clock reading in HT epoch milliseconds, the result
is the returned tick value and the updated counter state. Each branch mirrors
the source: backward jump (bump time travel counter modulo 8, `x & 7 = x % 8`,
and reset the counter), forward jump (deduct `diff * 1024` from the counter,
flooring at zero), or same millisecond; then `counter += 1` and
`MergeTimestamp::new(millis, counter, unique_context, time_travel)`. -/
def wcNow (uniqueContext : Nat) (s : WallClockCounter) (m : Nat) : Nat × WallClockCounter :=
  if m < s.curEpochMillis then
    let s2 : WallClockCounter := ⟨m, 0 + 1, (s.timeTravelCounter + 1) % 8⟩
    (mergeTimestampTicks m s2.counter uniqueContext s2.timeTravelCounter, s2)
  else if m - s.curEpochMillis ≠ 0 then
    let c1 := if s.counter < (m - s.curEpochMillis) * 1024 then 0
              else s.counter - (m - s.curEpochMillis) * 1024
    let s2 : WallClockCounter := ⟨m, c1 + 1, s.timeTravelCounter⟩
    (mergeTimestampTicks m s2.counter uniqueContext s2.timeTravelCounter, s2)
  else
    let s2 : WallClockCounter := ⟨s.curEpochMillis, s.counter + 1, s.timeTravelCounter⟩
    (mergeTimestampTicks m s2.counter uniqueContext s2.timeTravelCounter, s2)

/-- a sequence of `now()` calls against the readings `ms`, returning the list
of produced tick values; the initial state of `WallClock::new` is
`⟨0, 0, time_travel_counter⟩`. -/
def wcRun (uniqueContext : Nat) : WallClockCounter → List Nat → List Nat × WallClockCounter
| s, [] => ([], s)
| s, m :: ms =>
  let p := wcNow uniqueContext s m
  let q := wcRun uniqueContext p.2 ms
  (p.1 :: q.1, q.2)

theorem wcNow_step (uc : Nat) (s : WallClockCounter) (m : Nat)
    (hm : s.curEpochMillis ≤ m)
    (hof : m * 2 ^ 23 + (s.counter + 1) * 2 ^ 13 + uc * 2 ^ 3 + s.timeTravelCounter < 2 ^ 64) :
    mergeTimestampTicks s.curEpochMillis s.counter uc s.timeTravelCounter < (wcNow uc s m).1 ∧
    (wcNow uc s m).2.curEpochMillis = m ∧
    (wcNow uc s m).2.timeTravelCounter = s.timeTravelCounter ∧
    (wcNow uc s m).2.counter ≤ s.counter + 1 ∧
    (wcNow uc s m).1 = mergeTimestampTicks (wcNow uc s m).2.curEpochMillis
      (wcNow uc s m).2.counter uc (wcNow uc s m).2.timeTravelCounter := by
  simp only [wcNow, mergeTimestampTicks]
  rw [if_neg (by omega)]
  split
  · split <;> (simp; omega)
  · simp
    omega

/-- Claim C8: when the observed wall-clock millisecond `m` is at least the
last observed one, `now()` first reduces the per-millisecond counter by
`1024 * (elapsed milliseconds)`, flooring at zero, and then increments it;
the produced timestamp is strictly greater than the previous state's
timestamp, and a counter that has overflowed past 1023 places the produced
timestamp in the tick range of the following millisecond (so later
timestamps do not regress below it). The overflow-freedom hypothesis keeps
the `u64` packing below `2 ^ 64` (violating it needs an epoch after
year 2090). -/
theorem wallclock_counter_catchup (uc : Nat) (s : WallClockCounter) (m : Nat)
    (hm : s.curEpochMillis ≤ m)
    (hof : m * 2 ^ 23 + (s.counter + 1) * 2 ^ 13 + uc * 2 ^ 3 + s.timeTravelCounter < 2 ^ 64) :
    ((wcNow uc s m).2.counter =
       (if s.counter < (m - s.curEpochMillis) * 1024 then 0
        else s.counter - (m - s.curEpochMillis) * 1024) + 1) ∧
    mergeTimestampTicks s.curEpochMillis s.counter uc s.timeTravelCounter < (wcNow uc s m).1 ∧
    (2 ^ 10 ≤ (wcNow uc s m).2.counter →
       (wcNow uc s m).1 = mergeTimestampTicks (m + 1) ((wcNow uc s m).2.counter - 2 ^ 10)
         uc s.timeTravelCounter) := by
  refine ⟨?_, (wcNow_step uc s m hm hof).1, ?_⟩
  · simp only [wcNow]
    rw [if_neg (by omega)]
    split_ifs <;> simp_all
  · simp only [wcNow, mergeTimestampTicks]
    rw [if_neg (by omega)]
    split_ifs <;> simp_all <;> intro h <;> omega

/-- Witness for the C8 theorem: previous state (cur = 10 ms, counter = 5000
after an in-millisecond overflow, time travel 2), reading m = 11 ms. -/
theorem wallclock_counter_catchup_witness :
    ((10 : Nat) ≤ 11 ∧
     11 * 2 ^ 23 + (5000 + 1) * 2 ^ 13 + 3 * 2 ^ 3 + 2 < 2 ^ 64) ∧
    ((wcNow 3 ⟨10, 5000, 2⟩ 11).2.counter =
       (if 5000 < (11 - 10) * 1024 then 0 else 5000 - (11 - 10) * 1024) + 1) ∧
    mergeTimestampTicks 10 5000 3 2 < (wcNow 3 ⟨10, 5000, 2⟩ 11).1 ∧
    (2 ^ 10 ≤ (wcNow 3 ⟨10, 5000, 2⟩ 11).2.counter →
       (wcNow 3 ⟨10, 5000, 2⟩ 11).1 =
         mergeTimestampTicks (11 + 1) ((wcNow 3 ⟨10, 5000, 2⟩ 11).2.counter - 2 ^ 10) 3 2) :=
  ⟨⟨by decide, by decide⟩, wallclock_counter_catchup 3 ⟨10, 5000, 2⟩ 11 (by decide) (by decide)⟩

theorem wcRun_chain (uc : Nat) :
    ∀ (ms : List Nat) (s : WallClockCounter),
      uc < 1024 →
      s.timeTravelCounter < 8 →
      (∀ m ∈ ms,
        m * 2 ^ 23 + (s.counter + ms.length + 1) * 2 ^ 13 + uc * 2 ^ 3 + s.timeTravelCounter
          < 2 ^ 64) →
      List.Chain' (· ≤ ·) (s.curEpochMillis :: ms) →
      List.Chain' (· < ·)
        (mergeTimestampTicks s.curEpochMillis s.counter uc s.timeTravelCounter ::
          (wcRun uc s ms).1) := by
  intro ms
  induction ms with
  | nil =>
    intro s _ _ _ _
    simp [wcRun]
  | cons m ms ih =>
    intro s huc htt hofall hchain
    have hm : s.curEpochMillis ≤ m := (List.chain'_cons.mp hchain).1
    have hofm := hofall m (by simp)
    simp only [List.length_cons] at hofm
    have hof : m * 2 ^ 23 + (s.counter + 1) * 2 ^ 13 + uc * 2 ^ 3 + s.timeTravelCounter
        < 2 ^ 64 := by omega
    have hstep := wcNow_step uc s m hm hof
    simp only [wcRun]
    rw [List.chain'_cons]
    constructor
    · exact hstep.1
    · rw [hstep.2.2.2.2, hstep.2.1, hstep.2.2.1]
      have hofall2 : ∀ x ∈ ms,
          x * 2 ^ 23 + ((wcNow uc s m).2.counter + ms.length + 1) * 2 ^ 13 + uc * 2 ^ 3 +
            (wcNow uc s m).2.timeTravelCounter < 2 ^ 64 := by
        intro x hx
        have hx0 := hofall x (by simp [hx])
        simp only [List.length_cons] at hx0
        have hcnt := hstep.2.2.2.1
        rw [hstep.2.2.1]
        omega
      have := ih (wcNow uc s m).2 huc (by rw [hstep.2.2.1]; exact htt)
        hofall2
        (by rw [hstep.2.1]; exact (List.chain'_cons.mp hchain).2)
      rw [hstep.2.1, hstep.2.2.1] at this
      exact this

/-- Claim C3 (amended): for a fresh `WallClock` and any sequence of `now()`
calls during which the wall-clock readings never move backward, every
returned timestamp is strictly greater than every previously returned one.
The only side condition is the exact no-overflow bound of the 64-bit tick
packing, `m * 2 ^ 23 + (length + 2) * 2 ^ 13 ≤ 2 ^ 64` for each reading
`m`: the per-millisecond counter grows by at most one per call, so this
admits any readings inside the 41-bit epoch together with call counts up to
about 2 ^ 50 at realistic epochs (the repository's own 100000-call
monotonicity test is covered). The claim fails for sequences with backward
jumps (see the counterexample): the time-travel counter occupies the least
significant bits, so it disambiguates colliding timestamps but does not
restore monotonicity. -/
theorem wallclock_monotonic_forward (uc tt0 : Nat) (ms : List Nat)
    (huc : uc < 1024) (htt : tt0 < 8)
    (hms : List.Chain' (· ≤ ·) ms)
    (hof : ∀ m ∈ ms, m * 2 ^ 23 + (ms.length + 2) * 2 ^ 13 ≤ 2 ^ 64) :
    ((wcRun uc ⟨0, 0, tt0⟩ ms).1).Pairwise (· < ·) := by
  have hchain0 : List.Chain' (· ≤ ·) ((0 : Nat) :: ms) := by
    cases ms with
    | nil => simp
    | cons a l => exact List.chain'_cons.mpr ⟨Nat.zero_le a, hms⟩
  have hofall : ∀ m ∈ ms,
      m * 2 ^ 23 + ((0 : Nat) + ms.length + 1) * 2 ^ 13 + uc * 2 ^ 3 + tt0 < 2 ^ 64 := by
    intro m hm
    have := hof m hm
    omega
  have h := wcRun_chain uc ms ⟨0, 0, tt0⟩ huc htt hofall hchain0
  have htail := h.tail
  exact List.chain'_iff_pairwise.mp htail

/-- Witness for the amended C3 theorem: readings 1000, 1000, 1002 ms. -/
theorem wallclock_monotonic_forward_witness :
    ((7 : Nat) < 1024 ∧ (3 : Nat) < 8 ∧
     List.Chain' (· ≤ ·) [1000, 1000, 1002] ∧
     (∀ m ∈ ([1000, 1000, 1002] : List Nat),
        m * 2 ^ 23 + (([1000, 1000, 1002] : List Nat).length + 2) * 2 ^ 13 ≤ 2 ^ 64)) ∧
    ((wcRun 7 ⟨0, 0, 3⟩ [1000, 1000, 1002]).1).Pairwise (· < ·) :=
  ⟨⟨by decide, by decide, by norm_num [List.chain'_cons], by decide⟩,
    wallclock_monotonic_forward 7 3 [1000, 1000, 1002]
      (by decide) (by decide) (by norm_num [List.chain'_cons]) (by decide)⟩

/-- Claim C3 counterexample: with wall-clock readings 1000 ms then 500 ms (a
backward jump), the second timestamp returned by `now()` is strictly smaller
than the first, refuting strict monotonicity under backward jumps. -/
theorem wallclock_backward_jump_regresses :
    ¬ ((wcRun 0 ⟨0, 0, 0⟩ [1000, 500]).1.Pairwise (· < ·)) := by decide

/-- `ColumnType` (src/table.rs, lines 31-36). -/
inductive ColumnType
| boolean
| int
| bigint
| text
deriving DecidableEq, Repr

/-- `PrimaryKeySpec` (src/table.rs, lines 57-61). -/
inductive PrimaryKeySpec
| partitionKey
| clusterKey (ascending : Bool)
| regular
deriving DecidableEq, Repr

/-- `ColumnSchema` (src/table.rs, lines 39-44); `colId` is the `u8` id. -/
structure ColumnSchema where
  colId : Nat
  name : String
  tpe : ColumnType
  pkSpec : PrimaryKeySpec
deriving DecidableEq, Repr

/-- `ColumnSchema::is_primary_key` (src/table.rs, lines 47-53). -/
def ColumnSchema.isPrimaryKey (c : ColumnSchema) : Bool :=
  match c.pkSpec with
  | .partitionKey => true
  | .clusterKey _ => true
  | .regular => false

/-- `TableSchema` (src/table.rs, lines 63-85); the name and the table id are
not modelled (no claim mentions them). -/
structure TableSchema where
  columns : List ColumnSchema
deriving DecidableEq, Repr

/-- the `pk_columns` field as computed by `TableSchema::new` (src/table.rs,
lines 72-85): the primary-key columns in declaration order. -/
def TableSchema.pkColumns (s : TableSchema) : List ColumnSchema :=
  s.columns.filter (fun c => c.isPrimaryKey)

/-- `TableSchema::column` (src/table.rs, lines 87-92); `none` is the
not-found error. -/
def TableSchema.column (s : TableSchema) (colId : Nat) : Option ColumnSchema :=
  s.columns.find? (fun c => c.colId == colId)

/-- `ColumnValue` (src/table.rs, lines 609-615); text payloads are their
UTF-8 byte lists. -/
inductive ColumnValue
| boolean (b : Bool)
| int (v : Int)
| bigint (v : Int)
| text (s : List Nat)
deriving DecidableEq, Repr

/-- discriminant rank of the derived `Ord` of `ColumnValue` (variant order). -/
def ColumnValue.rank : ColumnValue → Nat
| boolean _ => 0
| int _ => 1
| bigint _ => 2
| text _ => 3

/-- lexicographic byte comparison: the `Ord` of Rust `str`. -/
def cmpBytes : List Nat → List Nat → Ordering
| [], [] => .eq
| [], _ :: _ => .lt
| _ :: _, [] => .gt
| a :: xs, b :: ys =>
  match compare a b with
  | .eq => cmpBytes xs ys
  | o => o

/-- the derived `Ord::cmp` of `ColumnValue` (src/table.rs, line 609): variant
order first, then payload order. -/
def ColumnValue.cmp : ColumnValue → ColumnValue → Ordering
| .boolean x, .boolean y => compare x y
| .int x, .int y => compare x y
| .bigint x, .bigint y => compare x y
| .text x, .text y => cmpBytes x y
| a, b => compare a.rank b.rank

/-- `ColumnData` (src/table.rs, lines 580-592): the logical column record.
Timestamps are `MergeTimestamp` tick values, expiries are
`TtlTimestamp::epoch_seconds` values. -/
structure ColumnData where
  colId : Nat
  timestamp : Nat
  expiry : Option Nat
  value : Option ColumnValue
deriving DecidableEq, Repr

/-- `RowFlags::create` (src/table.rs, lines 477-484): bit 0 = has_row_expiry. -/
def RowFlags.create (hasRowExpiry : Bool) : Nat := if hasRowExpiry then 1 else 0

/-- `RowFlags::has_row_expiry` (src/table.rs, lines 486-488); bit k of `x`
is `x / 2 ^ k % 2`. -/
def RowFlags.hasRowExpiry (f : Nat) : Bool := f % 2 = 1

/-- `ColumnFlags::new` (src/table.rs, lines 517-539): bit 0 NULL_VALUE,
bit 1 COLUMN_TIMESTAMP, bit 2 COLUMN_EXPIRY, bit 3 ROW_EXPIRY. -/
def ColumnFlags.create (isNull hasTimestamp hasColExpiry hasRowExpiry : Bool) : Nat :=
  (if isNull then 1 else 0) + (if hasTimestamp then 2 else 0) +
    (if hasColExpiry then 4 else 0) + (if hasRowExpiry then 8 else 0)

/-- `ColumnFlags::is_null` (src/table.rs, lines 541-543). -/
def ColumnFlags.isNull (f : Nat) : Bool := f % 2 = 1

/-- `ColumnFlags::has_col_timestamp` (src/table.rs, lines 544-546). -/
def ColumnFlags.hasColTimestamp (f : Nat) : Bool := f / 2 % 2 = 1

/-- `ColumnExpiryKind` (src/table.rs, lines 561-565). -/
inductive ColumnExpiryKind
| noExpiry
| rowExpiry
| columnExpiry
deriving DecidableEq, Repr

/-- `ColumnFlags::expiry` (src/table.rs, lines 547-558): ROW_EXPIRY (bit 3)
dominates COLUMN_EXPIRY (bit 2). -/
def ColumnFlags.expiryKind (f : Nat) : ColumnExpiryKind :=
  if f / 8 % 2 = 1 then .rowExpiry
  else if f / 4 % 2 = 1 then .columnExpiry
  else .noExpiry

/-- value decoding by column type: the `match` on `tpe` in
`RowData::read_col` (src/table.rs, lines 218-223), also used by
`PartialClusterKey::compare_to`. -/
def decodeValueOfType : ColumnType → List Nat → Option (ColumnValue × Nat)
| .boolean, buf => (decodeBoolFrom buf).map (fun p => (.boolean p.1, p.2))
| .int, buf => (decodeVarintI32From buf).map (fun p => (.int p.1, p.2))
| .bigint, buf => (decodeVarintI64From buf).map (fun p => (.bigint p.1, p.2))
| .text, buf => (decodeUtf8From buf).map (fun p => (.text p.1, p.2))

/-- `RowData::read_col` (src/table.rs, lines 199-226) in suffix style: decode
one column record given the row-default timestamp and expiry; returns the
logical column and the bytes consumed. Missing bytes and the `unwrap` on an
unknown column id are `none`.

Modelled from the spec: the `Decode` impls for `MergeTimestamp` and
`TtlTimestamp` are not under src/ (only their uses are); spec section 3
fixes them as little-endian fixed u64 / u32. -/
def readColFrom (schema : TableSchema) (rowTimestamp : Nat) (rowExpiry : Option Nat)
    (buf : List Nat) : Option (ColumnData × Nat) :=
  match buf.get? 0, buf.get? 1 with
  | some colId, some flags =>
    match
      (if ColumnFlags.hasColTimestamp flags then
        (decodeFixedU64From (buf.drop 2)).map (fun p => (p.1, 2 + p.2))
      else some (rowTimestamp, 2) : Option (Nat × Nat)) with
    | none => none
    | some (ts, n1) =>
      match
        (match ColumnFlags.expiryKind flags with
         | .noExpiry => some (none, n1)
         | .columnExpiry => (decodeFixedU32From (buf.drop n1)).map (fun p => (some p.1, n1 + p.2))
         | .rowExpiry => some (rowExpiry, n1) : Option (Option Nat × Nat)) with
      | none => none
      | some (exp, n2) =>
        if ColumnFlags.isNull flags then some (⟨colId, ts, exp, none⟩, n2)
        else
          match schema.column colId with
          | none => none
          | some cs =>
            match decodeValueOfType cs.tpe (buf.drop n2) with
            | none => none
            | some (v, n3) => some (⟨colId, ts, exp, some v⟩, n2 + n3)
  | _, _ => none

/-- `RowData::flags` (src/table.rs, lines 169-171). -/
def rowFlagsOf (buf : List Nat) : Option Nat := buf.get? 0

/-- `RowData::timestamp` (src/table.rs, lines 173-175): fixed u64 at offset 1.
Modelled from the spec: the missing `Decode` impl for `MergeTimestamp` is the
little-endian fixed u64 of spec section 3. -/
def rowTimestampOf (buf : List Nat) : Option Nat :=
  (decodeFixedU64From (buf.drop 1)).map Prod.fst

/-- `RowData::expiry` (src/table.rs, lines 177-185): when row flag bit 0 is
set, a fixed u32 at offset 9 = 1 + 8.
Modelled from the spec: the missing `Decode` impl for `TtlTimestamp` is the
little-endian fixed u32 of spec section 3. -/
def rowExpiryOf (buf : List Nat) : Option (Option Nat) :=
  match rowFlagsOf buf with
  | none => none
  | some f =>
    if RowFlags.hasRowExpiry f then (decodeFixedU32From (buf.drop 9)).map (fun p => some p.1)
    else some none

/-- `RowData::offs_start_column_data` (src/table.rs, lines 228-237). NOTE:
the source skips the row expiry with `decode_varint_u32`, although the
expiry is written as a fixed u32; the embedding reproduces that skip
faithfully. -/
def offsStartColumnData (buf : List Nat) : Option Nat :=
  match rowFlagsOf buf with
  | none => none
  | some f =>
    if RowFlags.hasRowExpiry f then (decodeVarintFrom (buf.drop 9)).map (fun p => 9 + p.2)
    else some 9

/-- one `next()` of `RowColumnIter` (src/table.rs, lines 353-364): `suffix`
is the not-yet-consumed tail of the row buffer; `row` is the whole buffer
(the iterator re-reads `row.timestamp()` and `row.expiry()` on each call).
`some none` is an exhausted iterator. -/
def rowColNext (schema : TableSchema) (row : List Nat) (suffix : List Nat) :
    Option (Option (ColumnData × List Nat)) :=
  if suffix.isEmpty then some none
  else
    match rowTimestampOf row, rowExpiryOf row with
    | some ts, some exp =>
      match readColFrom schema ts exp suffix with
      | none => none
      | some (c, n) => some (some (c, suffix.drop n))
    | _, _ => none

/-- drain the column iterator; each yielded column consumes at least two
bytes, so fuel = buffer length always suffices. -/
def rowColumnsAux (schema : TableSchema) (row : List Nat) :
    Nat → List Nat → Option (List ColumnData)
| 0, suffix => if suffix.isEmpty then some [] else none
| fuel + 1, suffix =>
  match rowColNext schema row suffix with
  | none => none
  | some none => some []
  | some (some (c, suffix2)) =>
    match rowColumnsAux schema row fuel suffix2 with
    | none => none
    | some cs => some (c :: cs)

/-- `RowData::columns` (src/table.rs, lines 274-276). NOTE: the source
constructs the iterator as `RowColumnIter { row, offs: 0 }` - starting at
offset 0, so the row header bytes are read as column records
(`RowColumnIter::new`, which starts at `offs_start_column_data()`, is not
what `columns()` calls). The embedding reproduces this faithfully. -/
def rowColumns (schema : TableSchema) (row : List Nat) : Option (List ColumnData) :=
  rowColumnsAux schema row row.length row

/-- the column read performed inside `compare_by_pk` and `read_col_by_id`:
`read_col(self.timestamp(), self.expiry(), offs)` with the row defaults
re-read from the header. -/
def readNextPkCol (schema : TableSchema) (row : List Nat) (suffix : List Nat) :
    Option (ColumnData × Nat) :=
  match rowTimestampOf row, rowExpiryOf row with
  | some ts, some exp => readColFrom schema ts exp suffix
  | _, _ => none

/-- the `desc` flag computed at the top of the `compare_by_pk` loop: the
per-column ordering is reversed for descending cluster keys (the Regular
case returns early in the source and never reads this flag). -/
def PrimaryKeySpec.descending : PrimaryKeySpec → Bool
| .partitionKey => false
| .clusterKey ascending => !ascending
| .regular => false

/-- the loop of `RowData::compare_by_pk` (src/table.rs, lines 239-272):
iterate the schema columns in declaration order; the first Regular column
ends the comparison with Equal; a descending cluster key reverses the
per-column ordering; the asserts on matching column ids and the panic on a
NULL primary-key value are `none`. -/
def compareByPkAux (schema : TableSchema) (a b : List Nat) :
    List ColumnSchema → List Nat → List Nat → Option Ordering
| [], _, _ => some .eq
| c :: rest, sufA, sufB =>
  if c.pkSpec = .regular then some .eq
  else
    match readNextPkCol schema a sufA, readNextPkCol schema b sufB with
    | some (ca, na), some (cb, nb) =>
      if ca.colId = c.colId ∧ cb.colId = c.colId then
        match ca.value, cb.value with
        | some va, some vb =>
          match va.cmp vb with
          | .eq => compareByPkAux schema a b rest (sufA.drop na) (sufB.drop nb)
          | o => some (if c.pkSpec.descending then o.swap else o)
        | _, _ => none
      else none
    | _, _ => none

/-- `RowData::compare_by_pk` (src/table.rs, lines 239-272). -/
def compareByPk (schema : TableSchema) (a b : List Nat) : Option Ordering :=
  match offsStartColumnData a, offsStartColumnData b with
  | some na, some nb => compareByPkAux schema a b schema.columns (a.drop na) (b.drop nb)
  | _, _ => none

/-- most-frequent element of a list: the `HashMap`-based counting of
`most_frequent_timestamp` / `most_frequent_expiry` (src/table.rs, lines
378-408). The source iterates a `HashMap`, whose iteration order is
unspecified, so ties among maximal counts are broken arbitrarily; here they
are broken by first occurrence. No theorem below depends on the tie break. -/
def mostFrequent : List Nat → Option Nat
| [] => none
| h :: t =>
  some ((h :: t).foldl (fun best x => if (h :: t).count x > (h :: t).count best then x else best) h)

/-- `DetachedRowData::most_frequent_timestamp` (src/table.rs, lines 378-390);
`none` models the `assert!(columns.len() > 0)` panic. -/
def mostFrequentTimestamp (columns : List ColumnData) : Option Nat :=
  mostFrequent (columns.map (fun c => c.timestamp))

/-- `DetachedRowData::most_frequent_expiry` (src/table.rs, lines 392-408):
most frequent among the non-null expiries, absent when there is none. -/
def mostFrequentExpiry (columns : List ColumnData) : Option Nat :=
  mostFrequent (columns.filterMap (fun c => c.expiry))

/-- `DetachedRowData::encode_column` (src/table.rs, lines 410-434): column id
byte, flags byte, optional fixed-u64 column timestamp, value payload. NOTE:
the source never writes the column expiry, even when the flags announce
COLUMN_EXPIRY; the embedding reproduces this faithfully. -/
def encodeColumn (col : ColumnData) (rowTimestamp : Nat) (rowExpiry : Option Nat) : List Nat :=
  [col.colId,
   ColumnFlags.create col.value.isNone (col.timestamp != rowTimestamp)
     (col.expiry.isSome && col.expiry != rowExpiry)
     (col.expiry.isSome && col.expiry == rowExpiry)] ++
  (if col.timestamp != rowTimestamp then encodeFixedU64 col.timestamp else []) ++
  (match col.value with
   | none => []
   | some (.boolean v) => encodeBool v
   | some (.int v) => encodeVarintI32 v
   | some (.bigint v) => encodeVarintI64 v
   | some (.text v) => encodeUtf8 v)

/-- `DetachedRowData::assemble` (src/table.rs, lines 436-464): row flags
byte, fixed-u64 row timestamp (the most frequent column timestamp), optional
fixed-u32 row expiry (the most frequent column expiry), then every column in
the given order. `none` models the panic on an empty column list. The schema
argument of the source is only stored, not read, and is omitted.
Modelled from the spec: the missing `Encode` impls for `MergeTimestamp` and
`TtlTimestamp` are the little-endian fixed u64 / u32 of spec section 3. -/
def assemble (columns : List ColumnData) : Option (List Nat) :=
  match mostFrequentTimestamp columns with
  | none => none
  | some rowTs =>
    let rowExp := mostFrequentExpiry columns
    some ([RowFlags.create rowExp.isSome] ++ encodeFixedU64 rowTs ++
      (match rowExp with | some e => encodeFixedU32 e | none => []) ++
      (columns.map (fun c => encodeColumn c rowTs rowExp)).flatten)

/-- the two-pointer column merge loop of `RowData::merge` (src/table.rs,
lines 289-329): take the side with the smaller column id; on equal ids keep
the column whose timestamp is strictly greater (a tie keeps the second
row's column). -/
def mergeColLists : List ColumnData → List ColumnData → List ColumnData
| [], o => o
| s :: ss, [] => s :: ss
| s :: ss, o :: os =>
  if s.colId < o.colId then s :: mergeColLists ss (o :: os)
  else if o.colId < s.colId then o :: mergeColLists (s :: ss) os
  else (if s.timestamp > o.timestamp then s else o) :: mergeColLists ss os
termination_by a b => a.length + b.length

/-- `RowData::merge` (src/table.rs, lines 278-335): walk both rows' column
streams (obtained through the `columns()` iterator) and assemble the merged
column list into a new detached row. The `assert_eq!` on the two schemas is
implicit in the single schema argument. -/
def mergeRows (schema : TableSchema) (a b : List Nat) : Option (List Nat) :=
  match rowColumns schema a, rowColumns schema b with
  | some ca, some cb => assemble (mergeColLists ca cb)
  | _, _ => none

/-- test schema with a single BigInt partition-key column of col id 0. -/
def pkOnlySchema : TableSchema := ⟨[⟨0, "pk", .bigint, .partitionKey⟩]⟩

/-- a minimal legitimate column list: the partition key BigInt 1 at
timestamp 12345, no expiry (primary-key columns first, col ids ascending). -/
def c1Input : List ColumnData := [⟨0, 12345, none, some (.bigint 1)⟩]

/-- Claim C1 (code bug): `assemble` succeeds on the legitimate column list
`c1Input`, but iterating `columns()` over the resulting buffer does not
yield the input columns: the iterator starts at offset 0, reads the row
flags byte as a column id and a timestamp byte as column flags, yields a
NULL pseudo-column, and then fails on the unknown column id 48 (another
timestamp byte). -/
theorem columns_of_assemble_code_bug :
    (assemble c1Input).isSome = true ∧
    (assemble c1Input).bind (fun b => rowColumns pkOnlySchema b) = none := by
  exact ⟨by decide, by decide⟩

/-- the schema of the repository's own memtable test (src/testutils.rs):
BigInt partition key, Text regular, Int regular. -/
def memSchema : TableSchema :=
  ⟨[⟨0, "pk", .bigint, .partitionKey⟩,
    ⟨1, "text", .text, .regular⟩,
    ⟨2, "int", .int, .regular⟩]⟩

/-- the first memtable-test row: (pk = 1, text = "abc", int = 123), all
columns at timestamp 12345. -/
def mtRow1Cols : List ColumnData :=
  [⟨0, 12345, none, some (.bigint 1)⟩,
   ⟨1, 12345, none, some (.text [97, 98, 99])⟩,
   ⟨2, 12345, none, some (.int 123)⟩]

/-- the second memtable-test row: (pk = 1, text = "xyz"), both columns at
timestamp 999999 - same primary key, all timestamps distinct from the first
row's. -/
def mtRow2Cols : List ColumnData :=
  [⟨0, 999999, none, some (.bigint 1)⟩,
   ⟨1, 999999, none, some (.text [120, 121, 122])⟩]

/-- Claim C4 (code bug): two legitimate rows over `memSchema` with equal
primary keys (and no equal-timestamp column pairs, so the claim's
hypothesis holds vacuously): `compare_by_pk` confirms the keys are equal,
yet `merge` fails in both argument orders, because it iterates the broken
`columns()` streams and hits an unknown column id - where the claim expects
equal merged rows. The repository's own memtable test exercises exactly this
merge and would panic. -/
theorem merge_commutes_code_bug :
    (assemble mtRow1Cols).isSome = true ∧
    (assemble mtRow2Cols).isSome = true ∧
    (do
      let a ← assemble mtRow2Cols
      let b ← assemble mtRow1Cols
      compareByPk memSchema a b) = some .eq ∧
    (do
      let a ← assemble mtRow2Cols
      let b ← assemble mtRow1Cols
      mergeRows memSchema a b) = none ∧
    (do
      let a ← assemble mtRow2Cols
      let b ← assemble mtRow1Cols
      mergeRows memSchema b a) = none := by
  exact ⟨by decide, by decide, by decide, by decide, by decide⟩

/-- `MemTable` (src/memtable.rs, lines 7-12): the stored rows (the
`BTreeSet` ordered by `compare_by_pk`; the storage order is irrelevant to
these claims, lookups compare with `compare_by_pk` exactly like the set's
`Ord` instance) and the `size` byte counter. Config and schema handles are
passed explicitly. -/
structure MemTable where
  rows : List (List Nat)
  size : Nat
deriving DecidableEq, Repr

/-- `BTreeSet::take(&row)` under the `compare_by_pk` order: find and remove
the stored row comparing Equal to `row`; a failing comparison (a panic
inside the set's comparator) is `none`; `some none` means no stored row has
this primary key. -/
def mtTake (schema : TableSchema) (row : List Nat) :
    List (List Nat) → Option (Option (List Nat × List (List Nat)))
| [] => some none
| e :: rest =>
  match compareByPk schema e row with
  | none => none
  | some .eq => some (some (e, rest))
  | some _ =>
    match mtTake schema row rest with
    | none => none
    | some none => some none
    | some (some (prev, rest2)) => some (some (prev, e :: rest2))

/-- `MemTable::add` (src/memtable.rs, lines 24-35): without a pk collision,
insert and grow `size` by the row's buffer length; on a collision remove the
previous row, insert `merge(new_view, previous_view)` and adjust `size` by
the net buffer-length change. -/
def MemTable.add (schema : TableSchema) (mt : MemTable) (row : List Nat) : Option MemTable :=
  match mtTake schema row mt.rows with
  | none => none
  | some none => some ⟨mt.rows ++ [row], mt.size + row.length⟩
  | some (some (prev, rest)) =>
    match mergeRows schema row prev with
    | none => none
    | some merged => some ⟨rest ++ [merged], mt.size - prev.length + merged.length⟩

/-- `MemTable::get` (src/memtable.rs, lines 37-39): lookup by primary key
under the `compare_by_pk` order. -/
def MemTable.get (schema : TableSchema) (mt : MemTable) (pkRow : List Nat) :
    Option (Option (List Nat)) :=
  match mtTake schema pkRow mt.rows with
  | none => none
  | some none => some none
  | some (some (prev, _)) => some (some prev)

/-- Claim C6 (code bug): adding the first test row to an empty memtable
works and grows `size` by the row's buffer length, but adding a second row
with the same primary key fails: `add` removes the previous entry and calls
`merge(new_view, previous_view)`, which panics inside the broken `columns()`
iterator - where the claim expects the merged row to be stored and `get` to
return it. This is the scenario of the repository's own memtable test. -/
theorem memtable_add_merge_code_bug :
    (do
      let r1 ← assemble mtRow1Cols
      let mt1 ← MemTable.add memSchema ⟨[], 0⟩ r1
      pure (mt1.size == r1.length && mt1.rows == [r1])) = some true ∧
    (do
      let r1 ← assemble mtRow1Cols
      let r2 ← assemble mtRow2Cols
      let mt1 ← MemTable.add memSchema ⟨[], 0⟩ r1
      MemTable.add memSchema mt1 r2) = none := by
  exact ⟨by decide, by decide⟩

/-- `TombStoneFlags::lower_bound_inclusive` (src/tombstones.rs, lines
56-58): bit 1 of the flags byte. -/
def TombStoneFlags.lowerBoundInclusive (f : Nat) : Bool := f / 2 % 2 = 1

/-- `TombStoneFlags::upper_bound_inclusive` (src/tombstones.rs, lines
62-64): bit 3 of the flags byte. -/
def TombStoneFlags.upperBoundInclusive (f : Nat) : Bool := f / 8 % 2 = 1

/-- `TombStone` (src/tombstones.rs, lines 8-15): flags byte and the optional
`PartialClusterKey` bound buffers (the schema handle is passed explicitly). -/
structure TombStone where
  timestamp : Nat
  flags : Nat
  lowerBound : Option (List Nat)
  upperBound : Option (List Nat)
deriving DecidableEq, Repr

/-- the loop of `PartialClusterKey::compare_to` (src/tombstones.rs, lines
73-101): for each pk column of the schema, until the partial-key buffer is
exhausted, decode one value from the partial key and pull one column from
the row's `columns()` iterator; the `expect` panics (iterator exhausted, or
NULL value in the row column) are `none`. -/
def pckCompareAux (schema : TableSchema) (row : List Nat) :
    List ColumnSchema → List Nat → List Nat → Option Ordering
| [], _, _ => some .eq
| c :: rest, pckSuf, rowSuf =>
  if pckSuf.isEmpty then some .eq
  else
    match decodeValueOfType c.tpe pckSuf with
    | none => none
    | some (v, np) =>
      match rowColNext schema row rowSuf with
      | none => none
      | some none => none
      | some (some (rc, rowSuf2)) =>
        match rc.value with
        | none => none
        | some rv =>
          match v.cmp rv with
          | .eq => pckCompareAux schema row rest (pckSuf.drop np) rowSuf2
          | o => some o

/-- `PartialClusterKey::compare_to` (src/tombstones.rs, lines 73-101): start
at offset 0 of the partial-key buffer and at a fresh `row.columns()`
iterator (which itself starts at offset 0 of the row buffer). -/
def pckCompareTo (schema : TableSchema) (pck : List Nat) (row : List Nat) : Option Ordering :=
  pckCompareAux schema row schema.pkColumns pck row

/-- `TombStone::matches` (src/tombstones.rs, lines 18-42): the row fails the
match when it lies strictly below the lower bound (or on a non-inclusive
lower bound), or strictly above the upper bound (or on a non-inclusive
upper bound); otherwise it matches. -/
def TombStone.matches (schema : TableSchema) (t : TombStone) (row : List Nat) : Option Bool :=
  match
    (match t.lowerBound with
     | none => some true
     | some pck =>
       match pckCompareTo schema pck row with
       | none => none
       | some .gt => some false
       | some .eq => some (TombStoneFlags.lowerBoundInclusive t.flags)
       | some .lt => some true : Option Bool) with
  | none => none
  | some false => some false
  | some true =>
    match t.upperBound with
    | none => some true
    | some pck =>
      match pckCompareTo schema pck row with
      | none => none
      | some .lt => some false
      | some .eq => some (TombStoneFlags.upperBoundInclusive t.flags)
      | some .gt => some true

/-- a tombstone with an inclusive lower bound whose partial cluster key
encodes the single value BigInt 1 (flags 3 = HAS_LOWER_BOUND with
LOWER_BOUND_INCLUSIVE), no upper bound. -/
def c9Tomb : TombStone := ⟨777, 3, some (encodeVarintI64 1), none⟩

/-- Claim C9 (code bug): the row assembled from `c1Input` has primary key
BigInt 1, equal to `c9Tomb`'s inclusive lower bound, so the claim expects
`matches` to return true - but `compare_to` pulls the row's columns through
the broken `columns()` iterator, whose first yielded pseudo-column has a
NULL value (its flag byte is a timestamp byte of the header), and the
`expect("cluster key is null in row")` panics. -/
theorem tombstone_matches_code_bug :
    (assemble c1Input).isSome = true ∧
    (assemble c1Input).bind (fun row => TombStone.matches pkOnlySchema c9Tomb row) = none := by
  exact ⟨by decide, by decide⟩

/-- the pair of files written by `SsTable::create`: the `.index` bytes and
the `.data` bytes. -/
structure SsTableFiles where
  indexBytes : List Nat
  dataBytes : List Nat
deriving DecidableEq, Repr

/-- `RowData::write_to` (src/table.rs, lines 161-165): varint length prefix
followed by the row bytes. -/
def frameRow (row : List Nat) : List Nat := encodeVarintNat row.length ++ row

/-- the write loop of `SsTable::create` (src/sstable.rs, lines 53-58): for
each row, append the current data-file position (its byte length so far) to
the index file as a fixed little-endian u64, then the framed row to the
data file. -/
def ssCreateAux : List (List Nat) → List Nat → List Nat → SsTableFiles
| [], ix, d => ⟨ix, d⟩
| row :: rest, ix, d => ssCreateAux rest (ix ++ encodeFixedU64 d.length) (d ++ frameRow row)

/-- `SsTable::create` (src/sstable.rs, lines 43-67), starting from empty
files; flushing, reopening and memory-mapping do not change the bytes. The
random uuid of the file name is not modelled; the claim's reopen goes
through the returned `name_base`, i.e. the same file pair. -/
def ssCreate (rows : List (List Nat)) : SsTableFiles := ssCreateAux rows [] []

/-- `SsTable::open` (src/sstable.rs, lines 69-76): open the two files of
`name_base` read-only and mmap them; on the files written by `create` this
yields exactly the bytes written, so it is the identity on the file pair. -/
def ssOpen (files : SsTableFiles) : SsTableFiles := files

/-- `SsTable::index_slice` (src/sstable.rs, lines 102-106): reinterpret the
index mmap as `len / 8` little-endian u64 values (trailing bytes ignored). -/
def indexSlice : List Nat → List Nat
| b0 :: b1 :: b2 :: b3 :: b4 :: b5 :: b6 :: b7 :: rest =>
  (b0 + 256 * (b1 + 256 * (b2 + 256 * (b3 + 256 * (b4 + 256 * (b5 + 256 * (b6 + 256 * b7))))))) ::
    indexSlice rest
| _ => []

/-- `SsTable::data_at` (src/sstable.rs, lines 108-112): decode the varint
row length at the offset, return the row slice; `none` models the slice
panic past the end of the mmap. -/
def dataAt (dataBytes : List Nat) (offs : Nat) : Option (List Nat) :=
  match decodeVarintFrom (dataBytes.drop offs) with
  | none => none
  | some (len, n) =>
    if offs + n + len ≤ dataBytes.length then some ((dataBytes.drop (offs + n)).take len)
    else none

/-- `slice::binary_search_by` as used by `find_by_full_pk`: the standard
half-interval loop `mid = left + (right - left) / 2`, returning `Err`
(`some none`) when the interval empties and `Ok mid` (`some (some mid)`)
when the comparator answers Equal; a comparator failure propagates as
`none` (the source captures the first error and returns `Err(e)`). The
interval shrinks strictly at every step, so fuel = the slice length always
suffices. -/
def binarySearchBy (cmpAt : Nat → Option Ordering) : Nat → Nat → Nat → Option (Option Nat)
| left, right, 0 => if left < right then none else some none
| left, right, fuel + 1 =>
  if left < right then
    match cmpAt (left + (right - left) / 2) with
    | none => none
    | some .lt => binarySearchBy cmpAt (left + (right - left) / 2 + 1) right fuel
    | some .gt => binarySearchBy cmpAt left (left + (right - left) / 2) fuel
    | some .eq => some (some (left + (right - left) / 2))
  else some none

/-- `SsTable::find_by_full_pk` (src/sstable.rs, lines 78-100): binary search
over the index offsets, resolving the comparator by decoding the framed row
at the probed offset and comparing it to the probe with `compare_by_pk`; on
Equal decode and return that row, otherwise return absent. -/
def findByFullPk (schema : TableSchema) (files : SsTableFiles) (probe : List Nat) :
    Option (Option (List Nat)) :=
  match binarySearchBy
      (fun i =>
        match (indexSlice files.indexBytes).get? i with
        | none => none
        | some offs =>
          match dataAt files.dataBytes offs with
          | none => none
          | some row => compareByPk schema row probe)
      0 (indexSlice files.indexBytes).length (indexSlice files.indexBytes).length with
  | none => none
  | some none => some none
  | some (some idx) =>
    match (indexSlice files.indexBytes).get? idx with
    | none => none
    | some offs =>
      match dataAt files.dataBytes offs with
      | none => none
      | some row => some (some row)

/-- the sstable test schema (src/sstable.rs test): BigInt partition key
(col 0), Text regular column (col 1). -/
def ssSchema : TableSchema :=
  ⟨[⟨0, "pk", .bigint, .partitionKey⟩, ⟨1, "text", .text, .regular⟩]⟩

/-- the columns of a well-formed row (pk BigInt, text "a" with expiry 100),
both at tick 555: the pk column first, col ids ascending, pk present and
non-null. The most frequent expiry is 100, so `assemble` sets the row
expiry and the row header is 13 bytes (1 flags + 8 timestamp + 4 fixed-u32
expiry); column data starts at offset 13. -/
def ssExpCols (pk : Int) : List ColumnData :=
  [⟨0, 555, none, some (.bigint pk)⟩, ⟨1, 555, some 100, some (.text [97])⟩]

/-- the assembled buffer of `ssExpCols pk`. -/
def ssExpRow (pk : Int) : List Nat := (assemble (ssExpCols pk)).getD []

/-- SSTable input rows: well-formed rows with primary keys 42 and 43, in
strictly ascending primary-key order, each carrying row expiry 100. -/
def ssExpRows : List (List Nat) := [ssExpRow 42, ssExpRow 43]

/-- a probe row carrying primary key 42 and no expiry (text column NULL),
as `find_by_full_pk` is probed in the source's own test. -/
def ssExpProbe : List Nat :=
  (assemble [⟨0, 555, none, some (.bigint 42)⟩, ⟨1, 555, none, none⟩]).getD []

/-- Claim C5 (code bug): two well-formed rows over the same schema with
primary keys 42 and 43 - their pk columns are present, non-null and decode
to BigInt 42 and BigInt 43 at the true column-data offset 13 of the
documented layout - yet `compare_by_pk` returns Equal:
`offs_start_column_data` skips the fixed-u32 row expiry (bytes
[100, 0, 0, 0]) as a varint, consuming one byte instead of four, so both
rows' "pk column" is read misaligned from offset 10 as BigInt 0. The claim
says the rows compare by their primary-key columns in declaration order,
which would give Less (42 before 43). -/
theorem compare_by_pk_expiry_code_bug :
    (assemble (ssExpCols 42)).isSome = true ∧
    (assemble (ssExpCols 43)).isSome = true ∧
    (readColFrom ssSchema 555 (some 100) ((ssExpRow 42).drop 13)).map Prod.fst =
      some ⟨0, 555, none, some (.bigint 42)⟩ ∧
    (readColFrom ssSchema 555 (some 100) ((ssExpRow 43).drop 13)).map Prod.fst =
      some ⟨0, 555, none, some (.bigint 43)⟩ ∧
    offsStartColumnData (ssExpRow 42) = some 10 ∧
    compareByPk ssSchema (ssExpRow 42) (ssExpRow 43) = some .eq := by
  exact ⟨by decide, by decide, by decide, by decide, by decide, by decide⟩

/-- Claim C2 (code bug): an SSTable created from the well-formed, strictly
ascending rows with primary keys 42 and 43 (each carrying row expiry 100)
answers a lookup with a probe carrying the stored primary key 42 with
Ok(None) - and the same after reopening - although the claim requires the
stored row to be returned. The cause is upstream of the (correct) binary
search: `offs_start_column_data` skips the stored rows' fixed-u32 row
expiry as a varint, so `compare_by_pk` reads their pk column misaligned as
BigInt 0 and answers Less against the probe's actual pk 42 at every index.
The probed rows' true pk values (42, 43 at offset 13) and the probe's pk
(42 at its offset 9, no expiry) are checked alongside. -/
theorem sstable_find_expiry_code_bug :
    (assemble (ssExpCols 42)).isSome = true ∧
    (assemble (ssExpCols 43)).isSome = true ∧
    (readColFrom ssSchema 555 (some 100) ((ssExpRow 42).drop 13)).map Prod.fst =
      some ⟨0, 555, none, some (.bigint 42)⟩ ∧
    (readColFrom ssSchema 555 (some 100) ((ssExpRow 43).drop 13)).map Prod.fst =
      some ⟨0, 555, none, some (.bigint 43)⟩ ∧
    (readColFrom ssSchema 555 none (ssExpProbe.drop 9)).map Prod.fst =
      some ⟨0, 555, none, some (.bigint 42)⟩ ∧
    findByFullPk ssSchema (ssCreate ssExpRows) ssExpProbe = some none ∧
    findByFullPk ssSchema (ssOpen (ssCreate ssExpRows)) ssExpProbe = some none := by
  exact ⟨by decide, by decide, by decide, by decide, by decide, by decide, by decide⟩

end HugeTable
